import Mathlib

/-!
Shallow embedding of `src/sr.c` (Selective Repeat ARQ, sender A and receiver B)
and verification of the specification's claims about it.

Conventions of the embedding:
* C `int` fields are `Int`; C `%` (truncated remainder) is `Int.tmod`,
  written here as `cMod`.
* The 20-byte `payload` / `data` char arrays are `List Int` (char values);
  `ComputeChecksum` sums them exactly as the C loop does.
* The fixed-size window arrays `window_A[WINDOWSIZE]`, `window_B[WINDOWSIZE]`
  are functions `Fin 6 → slot`; array indexing `w[p]` at a C `int` index `p`
  (always in `[0, 6)` where the C code is defined) is `w (toIdx p)`.
* Each C function returns the updated state together with the ordered list of
  calls it makes to the external collaborators (`tolayer3`, `tolayer5`,
  `starttimer`, `stoptimer`), modelled as `Event`s.
-/

namespace SR

/-- Constant `WINDOWSIZE` from `sr.c` (6). -/
def WINDOWSIZE : Int := 6

/-- Constant `SEQSPACE = 2*WINDOWSIZE` from `sr.c` (12). -/
def SEQSPACE : Int := 12

/-- Sentinel `NOTINUSE` from `sr.c`. -/
def NOTINUSE : Int := -1

/-- C truncated remainder `%` on `int`. -/
def cMod (a b : Int) : Int := Int.tmod a b

/-- Embedding of C array indexing for the 6-slot windows: every index the C
code uses lies in `[0, 6)`, where `toIdx` is the identity. -/
def toIdx (p : Int) : Fin 6 :=
  ⟨(p % 6).toNat, by
    have h1 : 0 ≤ p % 6 := Int.emod_nonneg p (by decide)
    have h2 : p % 6 < 6 := Int.emod_lt_of_pos p (by decide)
    omega⟩

/-- The C `struct pkt`: sequence number, ack number, 20-char payload, checksum. -/
structure Pkt where
  seqnum : Int
  acknum : Int
  payload : List Int
  checksum : Int
deriving DecidableEq

/-- The C `struct msg`: 20-char application message. -/
structure Msg where
  data : List Int
deriving DecidableEq

/-- A call made to an external collaborator, in program order. -/
inductive Event where
  | toLayer3 : Pkt → Event
  | toLayer5 : List Int → Event
  | startTimer : Event
  | stopTimer : Event
deriving DecidableEq

/-- Function `ComputeChecksum`: `seqnum + acknum + Σ payload bytes`. -/
def ComputeChecksum (p : Pkt) : Int :=
  p.seqnum + p.acknum + p.payload.sum

/-- Function `IsCorrupted`: true iff the stored checksum disagrees with the recomputed one. -/
def IsCorrupted (p : Pkt) : Bool :=
  if p.checksum = ComputeChecksum p then false else true

/-- The window-position computation the C code repeats in `A_output`,
`A_input` and `B_input`: `(a - base) % WINDOWSIZE`, adjusted into `[0, 6)`
when the truncated remainder is negative. -/
def windowPos (a base : Int) : Int :=
  let p := cMod (a - base) 6
  if p < 0 then p + 6 else p

/-- The ACK packet `B_input` constructs: `seqnum = NOTINUSE`, payload of
twenty `'0'` characters (value 48), checksum computed last. -/
def mkAck (a : Int) : Pkt :=
  let p : Pkt := { seqnum := NOTINUSE, acknum := a,
                   payload := List.replicate 20 48, checksum := 0 }
  { p with checksum := ComputeChecksum p }

/-! Sender (A) side. -/

/-- Struct `SenderPacketStatus` from `sr.c`. -/
structure SenderPacketStatus where
  packet : Pkt
  acked : Bool
  sent : Bool
  timer_id : Int
deriving DecidableEq

/-- All sender-side mutable state, including the statistics counters the
sender code updates (`window_full`, `total_ACKs_received`, `new_ACKs`,
`packets_resent`). -/
structure SenderState where
  window_A : Fin 6 → SenderPacketStatus
  window_base_A : Int
  next_seq_A : Int
  packets_in_window : Int
  oldest_unacked : Int
  window_full : Int
  total_ACKs_received : Int
  new_ACKs : Int
  packets_resent : Int
deriving DecidableEq

/-- Function `A_output` from `sr.c`. -/
def A_output (message : Msg) (s : SenderState) : SenderState × List Event :=
  if s.packets_in_window < WINDOWSIZE then
    let wpos := windowPos s.next_seq_A s.window_base_A
    let sendpkt0 : Pkt := { seqnum := s.next_seq_A, acknum := NOTINUSE,
                            payload := message.data, checksum := 0 }
    let sendpkt : Pkt := { sendpkt0 with checksum := ComputeChecksum sendpkt0 }
    let w' := Function.update s.window_A (toIdx wpos)
      { packet := sendpkt, acked := false, sent := true,
        timer_id := (s.window_A (toIdx wpos)).timer_id }
    let piw' := s.packets_in_window + 1
    let oldest' := if piw' = 1 then wpos else s.oldest_unacked
    ({ s with window_A := w', packets_in_window := piw', oldest_unacked := oldest',
              next_seq_A := cMod (s.next_seq_A + 1) SEQSPACE },
     [Event.toLayer3 sendpkt] ++ (if wpos = oldest' then [Event.startTimer] else []))
  else
    ({ s with window_full := s.window_full + 1 }, [])

/-- The `slide_count` loop of `A_input`: starting at window position
`oldest + i`, count consecutive acked slots (at most 6 iterations). -/
def consecAcked (w : Fin 6 → SenderPacketStatus) (oldest : Int) : Nat → Int → Int
  | 0, _ => 0
  | fuel + 1, i =>
      if (w (toIdx (cMod (oldest + i) 6))).acked then
        1 + consecAcked w oldest fuel (i + 1)
      else 0

/-- Value `slide_count` as computed by `A_input`. -/
def slideCount (w : Fin 6 → SenderPacketStatus) (oldest : Int) : Int :=
  consecAcked w oldest 6 0

/-- The slot-clearing loop of `A_input`'s window slide: for `i < k`, clear
`acked` and `sent` at window position `(oldest + i) % 6`. -/
def clearSlots (w : Fin 6 → SenderPacketStatus) (oldest : Int) : Nat → (Fin 6 → SenderPacketStatus)
  | 0 => w
  | k + 1 =>
      let w' := clearSlots w oldest k
      let j := toIdx (cMod (oldest + (k : Int)) 6)
      Function.update w' j { (w' j) with acked := false, sent := false }

/-- Function `A_input` from `sr.c`. -/
def A_input (packet : Pkt) (s : SenderState) : SenderState × List Event :=
  if IsCorrupted packet then (s, [])
  else
    let s0 := { s with total_ACKs_received := s.total_ACKs_received + 1 }
    let wpos := windowPos packet.acknum s0.window_base_A
    if packet.acknum ≥ s0.window_base_A ∧
       packet.acknum < cMod (s0.window_base_A + WINDOWSIZE) SEQSPACE then
      let slot := s0.window_A (toIdx wpos)
      if slot.acked = false ∧ slot.sent = true then
        let w1 := Function.update s0.window_A (toIdx wpos) { slot with acked := true }
        let s1 := { s0 with window_A := w1, new_ACKs := s0.new_ACKs + 1 }
        if packet.acknum = s1.window_base_A then
          let sc := slideCount w1 s1.oldest_unacked
          if sc > 0 then
            let piw' := s1.packets_in_window - sc
            ({ s1 with
                 window_A := clearSlots w1 s1.oldest_unacked sc.toNat,
                 window_base_A := cMod (s1.window_base_A + sc) SEQSPACE,
                 packets_in_window := piw',
                 oldest_unacked := cMod (s1.oldest_unacked + sc) 6 },
             [Event.stopTimer] ++ (if piw' > 0 then [Event.startTimer] else []))
          else (s1, [])
        else (s1, [])
      else (s0, [])
    else (s0, [])

/-- Function `A_timerinterrupt` from `sr.c`: resend `window_A[oldest_unacked].packet`
and restart the timer. -/
def A_timerinterrupt (s : SenderState) : SenderState × List Event :=
  ({ s with packets_resent := s.packets_resent + 1 },
   [Event.toLayer3 (s.window_A (toIdx s.oldest_unacked)).packet, Event.startTimer])

/-- Function `A_init` from `sr.c` (statistics counters start at 0 in the emulator). -/
def A_init : SenderState :=
  { window_A := fun _ =>
      { packet := { seqnum := -1, acknum := NOTINUSE, payload := [], checksum := 0 },
        acked := false, sent := false, timer_id := -1 },
    window_base_A := 0, next_seq_A := 0, packets_in_window := 0, oldest_unacked := 0,
    window_full := 0, total_ACKs_received := 0, new_ACKs := 0, packets_resent := 0 }

/-- Sender states reachable from `A_init` by any sequence of the three
sender entry points. -/
inductive ReachableA : SenderState → Prop
  | init : ReachableA A_init
  | output (m : Msg) (s : SenderState) : ReachableA s → ReachableA (A_output m s).1
  | input (p : Pkt) (s : SenderState) : ReachableA s → ReachableA (A_input p s).1
  | timer (s : SenderState) : ReachableA s → ReachableA (A_timerinterrupt s).1

/-! Receiver (B) side. -/

/-- Struct `ReceiverPacketStatus` from `sr.c`. -/
structure ReceiverPacketStatus where
  packet : Pkt
  received : Bool
deriving DecidableEq

/-- All receiver-side mutable state, including the statistics counters the
receiver code updates (`packets_received`, `delivered_count`). -/
structure ReceiverState where
  window_B : Fin 6 → ReceiverPacketStatus
  window_base_B : Int
  delivered_count : Int
  packets_received : Int
deriving DecidableEq

/-- The `deliver_count` loop of `B_input`: from array index `i` up, count
consecutive slots that are received and whose stored sequence number equals
`(window_base_B + i) % SEQSPACE`. -/
def deliverCountAux (w : Fin 6 → ReceiverPacketStatus) (base : Int) : Nat → Nat → Nat
  | 0, _ => 0
  | fuel + 1, i =>
      if h : i < 6 then
        if (w ⟨i, h⟩).received = true ∧
           (w ⟨i, h⟩).packet.seqnum = cMod (base + (i : Int)) SEQSPACE then
          1 + deliverCountAux w base fuel (i + 1)
        else 0
      else 0

/-- Value `deliver_count` as computed by `B_input`. -/
def deliverCount (w : Fin 6 → ReceiverPacketStatus) (base : Int) : Nat :=
  deliverCountAux w base 6 0

/-- The delivery loop of `B_input`: `tolayer5` for slots `0 .. d-1` in order. -/
def deliverEvents (w : Fin 6 → ReceiverPacketStatus) (d : Nat) : List Event :=
  (List.range d).map (fun i => Event.toLayer5 ((w (toIdx (i : Int))).packet.payload))

/-- The window-shift of `B_input`: slots `i < 6 - d` take the old slot
`i + d`; the vacated slots keep their packet but clear `received`. -/
def shiftWindow (w : Fin 6 → ReceiverPacketStatus) (d : Nat) : Fin 6 → ReceiverPacketStatus :=
  fun i =>
    if h : (i : Nat) + d < 6 then w ⟨(i : Nat) + d, h⟩
    else { (w i) with received := false }

/-- Function `B_input` from `sr.c`. -/
def B_input (packet : Pkt) (s : ReceiverState) : ReceiverState × List Event :=
  if IsCorrupted packet then
    (s, [Event.toLayer3 (mkAck (if s.window_base_B = 0 then SEQSPACE - 1 else s.window_base_B - 1))])
  else
    let wpos := windowPos packet.seqnum s.window_base_B
    let inner :=
      if packet.seqnum ≥ s.window_base_B ∧
         packet.seqnum < cMod (s.window_base_B + WINDOWSIZE) SEQSPACE then
        if (s.window_B (toIdx wpos)).received = false then
          let w1 := Function.update s.window_B (toIdx wpos)
            { packet := packet, received := true }
          let d := deliverCount w1 s.window_base_B
          let dels := deliverEvents w1 d
          if d > 0 then
            ({ s with window_B := shiftWindow w1 d,
                      window_base_B := cMod (s.window_base_B + (d : Int)) SEQSPACE,
                      delivered_count := s.delivered_count + (d : Int),
                      packets_received := s.packets_received + 1 }, dels)
          else
            ({ s with window_B := w1,
                      packets_received := s.packets_received + 1 }, dels)
        else (s, [])
      else (s, [])
    (inner.1, inner.2 ++ [Event.toLayer3 (mkAck packet.seqnum)])

/-- Function `B_init` from `sr.c` (only the `received` flags are initialized). -/
def B_init : ReceiverState :=
  { window_B := fun _ =>
      { packet := { seqnum := 0, acknum := 0, payload := [], checksum := 0 },
        received := false },
    window_base_B := 0, delivered_count := 0, packets_received := 0 }

/-- Receiver states reachable from `B_init` by any sequence of `B_input` calls. -/
inductive ReachableB : ReceiverState → Prop
  | init : ReachableB B_init
  | input (p : Pkt) (s : ReceiverState) : ReachableB s → ReachableB (B_input p s).1

/-! Spec-side notions and concrete scenarios. -/

/-- The specification's window-membership test: `n` lies in the half-open
modular interval `[base, base + WINDOWSIZE) mod SEQSPACE`. -/
def inModWindow (base n : Int) : Bool :=
  (n - base) % SEQSPACE < WINDOWSIZE

/-- A data packet with sequence number `n` and an all-`'b'` payload, with a
valid checksum (as the sender would build it). -/
def mkData (n : Int) : Pkt :=
  let p : Pkt := { seqnum := n, acknum := NOTINUSE,
                   payload := List.replicate 20 98, checksum := 0 }
  { p with checksum := ComputeChecksum p }

/-- A fixed application message used in the concrete scenarios. -/
def msgZ : Msg := { data := List.replicate 20 97 }

/-- One sender entry-point invocation. -/
inductive OpA where
  | out (m : Msg)
  | ack (p : Pkt)
  | timeout
deriving DecidableEq

/-- Apply one sender entry point to a state. -/
def stepA (s : SenderState) : OpA → SenderState
  | .out m => (A_output m s).1
  | .ack p => (A_input p s).1
  | .timeout => (A_timerinterrupt s).1

/-- Run a sequence of sender entry points from `A_init`. -/
def runA (ops : List OpA) : SenderState := ops.foldl stepA A_init

/-- Run a sequence of received packets through `B_input` from `B_init`. -/
def runB (ps : List Pkt) : ReceiverState := ps.foldl (fun s p => (B_input p s).1) B_init

/-- Test for a channel send (`tolayer3`) event. -/
def isToLayer3 : Event → Bool
  | .toLayer3 _ => true
  | _ => false

/-- Test for an application delivery (`tolayer5`) event. -/
def isToLayer5 : Event → Bool
  | .toLayer5 _ => true
  | _ => false

/-- Number of sender slots with `sent` set. -/
def sentCount (w : Fin 6 → SenderPacketStatus) : Nat :=
  (Finset.univ.filter (fun i => (w i).sent = true)).card

/-- Number of sender slots with `sent` set and `acked` clear: the in-flight
unacknowledged packets. -/
def outstandingCount (w : Fin 6 → SenderPacketStatus) : Nat :=
  (Finset.univ.filter (fun i => (w i).sent = true ∧ (w i).acked = false)).card

/-- Inductive invariant of the sender state machine: every acked slot is
sent, the number of sent slots never exceeds the occupancy counter, and the
occupancy counter never exceeds `WINDOWSIZE`. -/
def InvA (s : SenderState) : Prop :=
  (∀ i, (s.window_A i).acked = true → (s.window_A i).sent = true) ∧
  (sentCount s.window_A : Int) ≤ s.packets_in_window ∧
  s.packets_in_window ≤ WINDOWSIZE

/-- Inductive invariant of the receiver state machine: the base stays in
`[0, SEQSPACE)` and every received slot `i` stores the packet with sequence
number `(window_base_B + i) mod SEQSPACE`. -/
def InvB (s : ReceiverState) : Prop :=
  0 ≤ s.window_base_B ∧ s.window_base_B < SEQSPACE ∧
  ∀ i : Fin 6, (s.window_B i).received = true →
    (s.window_B i).packet.seqnum = (s.window_base_B + (i : Nat)) % SEQSPACE

/-- A packet whose stored checksum cannot match the recomputed one. -/
def corruptPkt : Pkt :=
  { seqnum := 0, acknum := 0, payload := List.replicate 20 48, checksum := 999 }

/-- Scenario for the sender-side wraparound bug: submit messages 0–5,
receive ACKs for 1,2,3,4,5 and then 0 (the window slides by 6, so
`window_base_A = 6`), then submit message 6. -/
def opsWrapA : List OpA :=
  [.out msgZ, .out msgZ, .out msgZ, .out msgZ, .out msgZ, .out msgZ,
   .ack (mkAck 1), .ack (mkAck 2), .ack (mkAck 3), .ack (mkAck 4), .ack (mkAck 5),
   .ack (mkAck 0), .out msgZ]

/-- The sender state reached by `opsWrapA`. -/
def stWrapA : SenderState := runA opsWrapA

/-- Scenario for the receiver-side wraparound bug: deliver data packets so
that the receiver delivers 0–4 (base 5) and then 5–10 (base 11). -/
def pktsWrapB : List Pkt :=
  [mkData 1, mkData 2, mkData 3, mkData 4, mkData 0,
   mkData 6, mkData 7, mkData 8, mkData 9, mkData 10, mkData 5]

/-- The receiver state reached by `pktsWrapB`. -/
def stWrapB : ReceiverState := runB pktsWrapB

/-- Scenario for the sender slot-misalignment bug: submit messages 0 and 1,
then receive the ACK for 0; the window slides by one, leaving packet 1
outstanding at array position 1 while `window_base_A = 1`. -/
def stMisalignA : SenderState := runA [.out msgZ, .out msgZ, .ack (mkAck 0)]

/-- Scenario with packets 0,1,2 outstanding and only packet 1 acked. -/
def stThreeA : SenderState := runA [.out msgZ, .out msgZ, .out msgZ, .ack (mkAck 1)]

/-- Receiver state that has received (but not delivered) packet 1. -/
def stDupB : ReceiverState := runB [mkData 1]

theorem reachableA_foldl (ops : List OpA) (s : SenderState) (h : ReachableA s) :
    ReachableA (ops.foldl stepA s) := by
  induction ops generalizing s with
  | nil => exact h
  | cons o rest ih =>
      refine ih _ ?_
      cases o with
      | out m => exact ReachableA.output m s h
      | ack p => exact ReachableA.input p s h
      | timeout => exact ReachableA.timer s h

theorem reachableA_runA (ops : List OpA) : ReachableA (runA ops) :=
  reachableA_foldl ops A_init ReachableA.init

theorem reachableB_foldl (ps : List Pkt) (s : ReceiverState) (h : ReachableB s) :
    ReachableB (ps.foldl (fun s p => (B_input p s).1) s) := by
  induction ps generalizing s with
  | nil => exact h
  | cons p rest ih => exact ih _ (ReachableB.input p s h)

theorem reachableB_runB (ps : List Pkt) : ReachableB (runB ps) :=
  reachableB_foldl ps B_init ReachableB.init

theorem filter_isToLayer3_deliverEvents (w : Fin 6 → ReceiverPacketStatus) (d : Nat) :
    (deliverEvents w d).filter isToLayer3 = [] := by
  rw [List.filter_eq_nil_iff]
  intro a ha
  simp only [deliverEvents, List.mem_map] at ha
  obtain ⟨i, -, rfl⟩ := ha
  simp [isToLayer3]

/-- Claim C1 (code bug): a sender state with `window_base_A = 6` is reachable
with packet 6 outstanding; the ACK for 6 lies in the modular window
`[6, 12) mod SEQSPACE`, yet `A_input` ignores it (only the received-ACKs
counter changes and no collaborator call is made), because its membership
test `acknum >= base && acknum < (base+WINDOWSIZE) % SEQSPACE` is vacuously
false once `base + WINDOWSIZE` reaches `SEQSPACE`. -/
theorem A_input_wraparound_window_bug :
    ReachableA stWrapA ∧
    stWrapA.window_base_A = 6 ∧
    inModWindow stWrapA.window_base_A 6 = true ∧
    (stWrapA.window_A (toIdx (windowPos 6 stWrapA.window_base_A))).sent = true ∧
    (stWrapA.window_A (toIdx (windowPos 6 stWrapA.window_base_A))).acked = false ∧
    (stWrapA.window_A (toIdx (windowPos 6 stWrapA.window_base_A))).packet.seqnum = 6 ∧
    A_input (mkAck 6) stWrapA =
      ({ stWrapA with total_ACKs_received := stWrapA.total_ACKs_received + 1 }, []) :=
  ⟨reachableA_runA opsWrapA, by decide, by decide, by decide, by decide, by decide, by decide⟩

/-- Claim C2 (code bug): the receiver reaches `window_base_B = 11`; a packet
with `seqnum = 11` lies in the modular window `[11, 11+6) mod 12` (and so
does the following `seqnum = 0`), yet `B_input` does not buffer it: the
state is completely unchanged and only the ACK is emitted, so 11 followed by
0 is not treated as consecutive. -/
theorem B_input_wraparound_window_bug :
    ReachableB stWrapB ∧
    stWrapB.window_base_B = 11 ∧
    stWrapB.delivered_count = 11 ∧
    inModWindow stWrapB.window_base_B 11 = true ∧
    inModWindow stWrapB.window_base_B 0 = true ∧
    B_input (mkData 11) stWrapB = (stWrapB, [Event.toLayer3 (mkAck 11)]) :=
  ⟨reachableB_runB pktsWrapB, by decide, by decide, by decide, by decide, by decide⟩

/-- Claim C3 (code bug): in the reachable state `stMisalignA` the window has
slid once, so the base packet (seqnum 1, sent and unacked) sits at array
position 1 while `A_input` looks it up at `(acknum - base) % WINDOWSIZE = 0`;
the fresh ACK for the base is therefore treated as a duplicate: nothing is
marked, the base does not advance and no timer call is made, contradicting
the claimed mark-and-slide behaviour. -/
theorem A_input_base_ack_misalignment_bug :
    ReachableA stMisalignA ∧
    stMisalignA.window_base_A = 1 ∧
    stMisalignA.oldest_unacked = 1 ∧
    stMisalignA.packets_in_window = 1 ∧
    (stMisalignA.window_A (toIdx stMisalignA.oldest_unacked)).sent = true ∧
    (stMisalignA.window_A (toIdx stMisalignA.oldest_unacked)).acked = false ∧
    (stMisalignA.window_A (toIdx stMisalignA.oldest_unacked)).packet.seqnum = 1 ∧
    inModWindow stMisalignA.window_base_A 1 = true ∧
    A_input (mkAck 1) stMisalignA =
      ({ stMisalignA with total_ACKs_received := stMisalignA.total_ACKs_received + 1 }, []) :=
  ⟨reachableA_runA _, by decide, by decide, by decide, by decide, by decide, by decide,
   by decide, by decide⟩

/-- Claim C4: with at least one outstanding packet, a timer interrupt sends
exactly one packet to the channel, namely the one stored at the slot of the
oldest unacknowledged packet, and then restarts the timer; the state changes
only in the retransmission counter.  In the concrete scenario with packets
0,1,2 outstanding and only packet 1 acked, the resent packet is packet 0. -/
theorem A_timerinterrupt_resends_only_oldest (s : SenderState)
    (h : 1 ≤ s.packets_in_window) :
    (A_timerinterrupt s).2 =
      [Event.toLayer3 (s.window_A (toIdx s.oldest_unacked)).packet, Event.startTimer] ∧
    (A_timerinterrupt s).1 = { s with packets_resent := s.packets_resent + 1 } ∧
    (stThreeA.window_A (toIdx stThreeA.oldest_unacked)).packet.seqnum = 0 ∧
    stThreeA.window_base_A = 0 ∧
    stThreeA.packets_in_window = 3 ∧
    (stThreeA.window_A (toIdx 1)).acked = true := by
  refine ⟨rfl, rfl, by decide, by decide, by decide, by decide⟩

/-- Witness for C4 at the concrete scenario state. -/
theorem A_timerinterrupt_resends_only_oldest_witness :
    (A_timerinterrupt stThreeA).2 =
      [Event.toLayer3 (stThreeA.window_A (toIdx stThreeA.oldest_unacked)).packet,
       Event.startTimer] :=
  (A_timerinterrupt_resends_only_oldest stThreeA (by decide)).1

/-- Claim C6: on every non-corrupted incoming packet, `B_input` makes exactly
one channel send, and it is the ACK carrying the received packet's own
sequence number. -/
theorem B_input_emits_exactly_one_ack (s : ReceiverState) (p : Pkt)
    (h : IsCorrupted p = false) :
    (B_input p s).2.filter isToLayer3 = [Event.toLayer3 (mkAck p.seqnum)] := by
  simp only [B_input, h, Bool.false_eq_true, if_false]
  split_ifs <;>
    simp [List.filter_append, filter_isToLayer3_deliverEvents, isToLayer3]

/-- Witness for C6. -/
theorem B_input_emits_exactly_one_ack_witness :
    (B_input (mkData 0) B_init).2.filter isToLayer3 =
      [Event.toLayer3 (mkAck (mkData 0).seqnum)] :=
  B_input_emits_exactly_one_ack B_init (mkData 0) (by decide)

/-- Claim C7: duplicates are idempotent.  A non-corrupted ACK whose window
slot is already acked changes nothing but the received-ACKs counter and makes
no collaborator call; a non-corrupted data packet whose window slot is
already received leaves the receiver state unchanged and only re-sends the
ACK (no re-store, no re-delivery). -/
theorem duplicate_inputs_are_noops :
    (∀ (s : SenderState) (p : Pkt), IsCorrupted p = false →
        (s.window_A (toIdx (windowPos p.acknum s.window_base_A))).acked = true →
        A_input p s = ({ s with total_ACKs_received := s.total_ACKs_received + 1 }, [])) ∧
    (∀ (s : ReceiverState) (p : Pkt), IsCorrupted p = false →
        (s.window_B (toIdx (windowPos p.seqnum s.window_base_B))).received = true →
        B_input p s = (s, [Event.toLayer3 (mkAck p.seqnum)])) := by
  constructor
  · intro s p hc ha
    simp [A_input, hc, ha]
  · intro s p hc hr
    simp [B_input, hc, hr]

/-- Witness for C7. -/
theorem duplicate_inputs_are_noops_witness :
    A_input (mkAck 1) stThreeA =
      ({ stThreeA with total_ACKs_received := stThreeA.total_ACKs_received + 1 }, []) ∧
    B_input (mkData 1) stDupB = (stDupB, [Event.toLayer3 (mkAck (mkData 1).seqnum)]) :=
  ⟨duplicate_inputs_are_noops.1 stThreeA (mkAck 1) (by decide) (by decide),
   duplicate_inputs_are_noops.2 stDupB (mkData 1) (by decide) (by decide)⟩

/-- Claim C8: corrupted inputs leave state unchanged on both sides.  A
corrupted ACK makes `A_input` do nothing at all; a corrupted data packet
makes `B_input` buffer and deliver nothing, leave the receiver state
unchanged, and still emit one ACK for `(window_base_B - 1) mod SEQSPACE`. -/
theorem corrupted_inputs_ignored :
    (∀ (s : SenderState) (p : Pkt), IsCorrupted p = true → A_input p s = (s, [])) ∧
    (∀ (s : ReceiverState) (p : Pkt), IsCorrupted p = true →
       0 ≤ s.window_base_B → s.window_base_B < SEQSPACE →
       B_input p s = (s, [Event.toLayer3 (mkAck ((s.window_base_B - 1) % SEQSPACE))])) := by
  constructor
  · intro s p h
    simp [A_input, h]
  · intro s p h h0 h1
    have h1' : s.window_base_B < 12 := by simpa [SEQSPACE] using h1
    have hsel : (if s.window_base_B = 0 then SEQSPACE - 1 else s.window_base_B - 1)
        = (s.window_base_B - 1) % SEQSPACE := by
      by_cases hb : s.window_base_B = 0
      · rw [hb]; decide
      · have h2 : (s.window_base_B - 1) % SEQSPACE = s.window_base_B - 1 :=
          Int.emod_eq_of_lt (by omega) (by simp only [SEQSPACE]; omega)
        simp [hb, h2]
    simp [B_input, h, hsel]

/-- Witness for C8. -/
theorem corrupted_inputs_ignored_witness :
    A_input corruptPkt A_init = (A_init, []) ∧
    B_input corruptPkt B_init =
      (B_init, [Event.toLayer3 (mkAck ((B_init.window_base_B - 1) % SEQSPACE))]) :=
  ⟨corrupted_inputs_ignored.1 A_init corruptPkt (by decide),
   corrupted_inputs_ignored.2 B_init corruptPkt (by decide) (by decide) (by decide)⟩

/-- Claim C9: when the occupancy counter equals `WINDOWSIZE`, `A_output`
rejects the message: no channel send, no timer call, and the only state
change is the window-full counter. -/
theorem A_output_window_full_rejects (s : SenderState) (m : Msg)
    (h : s.packets_in_window = WINDOWSIZE) :
    A_output m s = ({ s with window_full := s.window_full + 1 }, []) := by
  simp [A_output, h]

/-- Witness for C9. -/
theorem A_output_window_full_rejects_witness :
    A_output msgZ { A_init with packets_in_window := WINDOWSIZE } =
      ({ A_init with packets_in_window := WINDOWSIZE,
                     window_full := A_init.window_full + 1 }, []) :=
  A_output_window_full_rejects _ msgZ rfl

theorem toIdx_eq_iff (p q : Int) : toIdx p = toIdx q ↔ p % 6 = q % 6 := by
  unfold toIdx
  constructor
  · intro h
    have hv := congrArg Fin.val h
    have h1 : 0 ≤ p % 6 := Int.emod_nonneg p (by decide)
    have h2 : 0 ≤ q % 6 := Int.emod_nonneg q (by decide)
    simp only at hv
    omega
  · intro h
    apply Fin.ext
    simp [h]

theorem cMod_six_emod (x : Int) : (cMod x 6) % 6 = x % 6 := by
  have h := Int.tdiv_add_tmod x 6
  unfold cMod
  omega

theorem toIdx_cMod (x : Int) : toIdx (cMod x 6) = toIdx x := by
  apply Fin.ext
  show ((cMod x 6) % 6).toNat = (x % 6).toNat
  rw [cMod_six_emod]

theorem clearPos_inj (oldest : Int) {i j : Nat} (hi : i < 6) (hj : j < 6)
    (h : toIdx (cMod (oldest + (i : Int)) 6) = toIdx (cMod (oldest + (j : Int)) 6)) :
    i = j := by
  rw [toIdx_cMod, toIdx_cMod, toIdx_eq_iff] at h
  omega

theorem consecAcked_nonneg (w : Fin 6 → SenderPacketStatus) (oldest : Int) :
    ∀ (fuel : Nat) (i : Int), 0 ≤ consecAcked w oldest fuel i := by
  intro fuel
  induction fuel with
  | zero => intro i; simp [consecAcked]
  | succ n ih =>
      intro i
      simp only [consecAcked]
      split
      · have := ih (i + 1); omega
      · omega

theorem consecAcked_le (w : Fin 6 → SenderPacketStatus) (oldest : Int) :
    ∀ (fuel : Nat) (i : Int), consecAcked w oldest fuel i ≤ (fuel : Int) := by
  intro fuel
  induction fuel with
  | zero => intro i; simp [consecAcked]
  | succ n ih =>
      intro i
      simp only [consecAcked]
      split
      · have := ih (i + 1); push_cast; omega
      · push_cast; omega

theorem consecAcked_acked (w : Fin 6 → SenderPacketStatus) (oldest : Int) :
    ∀ (fuel : Nat) (i : Int) (k : Nat), (k : Int) < consecAcked w oldest fuel i →
      (w (toIdx (cMod (oldest + (i + (k : Int))) 6))).acked = true := by
  intro fuel
  induction fuel with
  | zero =>
      intro i k h
      simp only [consecAcked] at h
      exact absurd h (by omega)
  | succ n ih =>
      intro i k h
      simp only [consecAcked] at h
      by_cases ha : (w (toIdx (cMod (oldest + i) 6))).acked = true
      · rw [if_pos ha] at h
        cases k with
        | zero => simpa using ha
        | succ m =>
            have h' : (m : Int) < consecAcked w oldest n (i + 1) := by push_cast at h; omega
            have hm := ih (i + 1) m h'
            have harg : oldest + (i + ((m + 1 : Nat) : Int)) = oldest + (i + 1 + (m : Int)) := by
              push_cast; ring
            rw [harg]
            exact hm
      · rw [if_neg ha] at h
        exact absurd h (by omega)

theorem clearSlots_apply_of_notin (w : Fin 6 → SenderPacketStatus) (oldest : Int) :
    ∀ (k : Nat) (j : Fin 6),
      (∀ i : Nat, i < k → toIdx (cMod (oldest + (i : Int)) 6) ≠ j) →
      clearSlots w oldest k j = w j := by
  intro k
  induction k with
  | zero => intro j _; rfl
  | succ n ih =>
      intro j hj
      simp only [clearSlots]
      rw [Function.update_noteq (Ne.symm (hj n (by omega)))]
      exact ih j (fun i hi => hj i (by omega))

theorem clearSlots_acked_imp_sent (w : Fin 6 → SenderPacketStatus) (oldest : Int)
    (hw : ∀ j, (w j).acked = true → (w j).sent = true) :
    ∀ (k : Nat) (j : Fin 6),
      ((clearSlots w oldest k) j).acked = true → ((clearSlots w oldest k) j).sent = true := by
  intro k
  induction k with
  | zero => exact hw
  | succ n ih =>
      intro j
      simp only [clearSlots]
      by_cases hj : j = toIdx (cMod (oldest + (n : Int)) 6)
      · subst hj
        rw [Function.update_same]
        intro h
        exact absurd h (by simp)
      · rw [Function.update_noteq hj]
        exact ih j

theorem sentCount_update_le (w : Fin 6 → SenderPacketStatus) (j : Fin 6)
    (v : SenderPacketStatus) :
    sentCount (Function.update w j v) ≤ sentCount w + 1 := by
  unfold sentCount
  have hsub : Finset.univ.filter (fun i => ((Function.update w j v) i).sent = true)
      ⊆ insert j (Finset.univ.filter (fun i => (w i).sent = true)) := by
    intro i hi
    by_cases hij : i = j
    · subst hij; exact Finset.mem_insert_self _ _
    · simp only [Finset.mem_filter, Finset.mem_univ, true_and,
        Function.update_noteq hij] at hi
      exact Finset.mem_insert_of_mem (by simp [hi])
  exact (Finset.card_le_card hsub).trans (Finset.card_insert_le _ _)

theorem sentCount_update_same_sent (w : Fin 6 → SenderPacketStatus) (j : Fin 6)
    (v : SenderPacketStatus) (h : v.sent = (w j).sent) :
    sentCount (Function.update w j v) = sentCount w := by
  unfold sentCount
  congr 1
  apply Finset.filter_congr
  intro i _
  by_cases hij : i = j
  · subst hij; simp [Function.update_same, h]
  · simp [Function.update_noteq hij]

theorem sentCount_update_clear (w : Fin 6 → SenderPacketStatus) (j : Fin 6)
    (v : SenderPacketStatus) (hw : (w j).sent = true) (hv : v.sent = false) :
    sentCount (Function.update w j v) + 1 = sentCount w := by
  unfold sentCount
  have hset : Finset.univ.filter (fun i => ((Function.update w j v) i).sent = true)
      = (Finset.univ.filter (fun i => (w i).sent = true)).erase j := by
    ext i
    simp only [Finset.mem_filter, Finset.mem_erase, Finset.mem_univ, true_and]
    by_cases hij : i = j
    · subst hij; simp [Function.update_same, hv]
    · simp [Function.update_noteq hij, hij]
  have hmem : j ∈ Finset.univ.filter (fun i : Fin 6 => (w i).sent = true) := by simp [hw]
  rw [hset, Finset.card_erase_of_mem hmem]
  have : 0 < (Finset.univ.filter (fun i : Fin 6 => (w i).sent = true)).card :=
    Finset.card_pos.mpr ⟨j, hmem⟩
  omega

theorem sentCount_clearSlots (w : Fin 6 → SenderPacketStatus) (oldest : Int) :
    ∀ (k : Nat), k ≤ 6 →
      (∀ i : Nat, i < k → (w (toIdx (cMod (oldest + (i : Int)) 6))).sent = true) →
      sentCount (clearSlots w oldest k) + k = sentCount w := by
  intro k
  induction k with
  | zero => intro _ _; simp [clearSlots]
  | succ n ih =>
      intro hk hsent
      have hne : ∀ i : Nat, i < n →
          toIdx (cMod (oldest + (i : Int)) 6) ≠ toIdx (cMod (oldest + (n : Int)) 6) := by
        intro i hi hcontra
        exact absurd (clearPos_inj oldest (by omega) (by omega) hcontra) (by omega)
      have hkeep : (clearSlots w oldest n) (toIdx (cMod (oldest + (n : Int)) 6))
          = w (toIdx (cMod (oldest + (n : Int)) 6)) :=
        clearSlots_apply_of_notin w oldest n _ hne
      have h1 := sentCount_update_clear (clearSlots w oldest n)
        (toIdx (cMod (oldest + (n : Int)) 6))
        { (clearSlots w oldest n) (toIdx (cMod (oldest + (n : Int)) 6)) with
            acked := false, sent := false }
        (by rw [hkeep]; exact hsent n (by omega)) rfl
      have h2 := ih (by omega) (fun i hi => hsent i (by omega))
      show sentCount (Function.update (clearSlots w oldest n)
          (toIdx (cMod (oldest + (n : Int)) 6))
          { (clearSlots w oldest n) (toIdx (cMod (oldest + (n : Int)) 6)) with
              acked := false, sent := false }) + (n + 1) = sentCount w
      omega

theorem invA_init : InvA A_init := by
  unfold InvA
  decide

theorem invA_update (w0 : Fin 6 → SenderPacketStatus) (j : Fin 6) (v : SenderPacketStatus)
    (piw : Int)
    (ha : ∀ i, (w0 i).acked = true → (w0 i).sent = true)
    (hs : (sentCount w0 : Int) ≤ piw)
    (hvs : v.sent = (w0 j).sent)
    (hva : v.acked = true → v.sent = true) :
    (∀ i, ((Function.update w0 j v) i).acked = true →
          ((Function.update w0 j v) i).sent = true) ∧
    (sentCount (Function.update w0 j v) : Int) ≤ piw := by
  constructor
  · intro i
    by_cases hij : i = j
    · subst hij
      rw [Function.update_same]
      exact hva
    · rw [Function.update_noteq hij]
      exact ha i
  · rw [sentCount_update_same_sent w0 j v hvs]
    exact hs

theorem invA_output_window (w0 : Fin 6 → SenderPacketStatus) (j : Fin 6)
    (v : SenderPacketStatus) (piw : Int)
    (ha : ∀ i, (w0 i).acked = true → (w0 i).sent = true)
    (hs : (sentCount w0 : Int) ≤ piw)
    (hva : v.acked = true → v.sent = true) :
    (∀ i, ((Function.update w0 j v) i).acked = true →
          ((Function.update w0 j v) i).sent = true) ∧
    (sentCount (Function.update w0 j v) : Int) ≤ piw + 1 := by
  constructor
  · intro i
    by_cases hij : i = j
    · subst hij
      rw [Function.update_same]
      exact hva
    · rw [Function.update_noteq hij]
      exact ha i
  · have := sentCount_update_le w0 j v
    omega

theorem invA_output (s : SenderState) (m : Msg) (h : InvA s) : InvA (A_output m s).1 := by
  obtain ⟨ha, hs, hp⟩ := h
  by_cases hfull : s.packets_in_window < WINDOWSIZE
  · simp only [A_output, if_pos hfull]
    obtain ⟨hi1, hi2⟩ := invA_output_window s.window_A
      (toIdx (windowPos s.next_seq_A s.window_base_A))
      { packet :=
          { seqnum := s.next_seq_A,
            acknum := NOTINUSE,
            payload := m.data,
            checksum :=
              ComputeChecksum
                { seqnum := s.next_seq_A,
                  acknum := NOTINUSE,
                  payload := m.data,
                  checksum := 0 } },
        acked := false,
        sent := true,
        timer_id := (s.window_A (toIdx (windowPos s.next_seq_A s.window_base_A))).timer_id }
      s.packets_in_window ha hs (fun hcontra => absurd hcontra (by simp))
    refine ⟨hi1, hi2, ?_⟩
    show s.packets_in_window + 1 ≤ WINDOWSIZE
    simp only [WINDOWSIZE] at hfull ⊢
    omega
  · simp only [A_output, if_neg hfull]
    exact ⟨ha, hs, hp⟩

theorem invA_slide (w : Fin 6 → SenderPacketStatus) (oldest piw : Int)
    (ha : ∀ i, (w i).acked = true → (w i).sent = true)
    (hs : (sentCount w : Int) ≤ piw) (hp : piw ≤ 6)
    (hscpos : 0 < slideCount w oldest) :
    (∀ i, ((clearSlots w oldest (slideCount w oldest).toNat) i).acked = true →
          ((clearSlots w oldest (slideCount w oldest).toNat) i).sent = true) ∧
    (sentCount (clearSlots w oldest (slideCount w oldest).toNat) : Int)
        ≤ piw - slideCount w oldest ∧
    piw - slideCount w oldest ≤ 6 := by
  have hle : slideCount w oldest ≤ 6 := consecAcked_le w oldest 6 0
  have hsent : ∀ i : Nat, i < (slideCount w oldest).toNat →
      (w (toIdx (cMod (oldest + (i : Int)) 6))).sent = true := by
    intro i hi
    have hik : ((i : Int)) < consecAcked w oldest 6 0 := by
      unfold slideCount at hi
      omega
    have hacked := consecAcked_acked w oldest 6 0 i (by simpa using hik)
    have harg : oldest + ((0 : Int) + (i : Int)) = oldest + (i : Int) := by ring
    rw [harg] at hacked
    exact ha _ hacked
  have hclear := sentCount_clearSlots w oldest (slideCount w oldest).toNat
    (by omega) hsent
  refine ⟨clearSlots_acked_imp_sent w oldest ha _, ?_, by omega⟩
  omega

theorem invA_slide_full (w0 : Fin 6 → SenderPacketStatus) (j : Fin 6)
    (v : SenderPacketStatus) (oldest piw : Int)
    (ha : ∀ i, (w0 i).acked = true → (w0 i).sent = true)
    (hs : (sentCount w0 : Int) ≤ piw) (hp : piw ≤ WINDOWSIZE)
    (hvs : v.sent = (w0 j).sent)
    (hva : v.acked = true → v.sent = true)
    (hscpos : 0 < slideCount (Function.update w0 j v) oldest) :
    (∀ i, ((clearSlots (Function.update w0 j v) oldest
            (slideCount (Function.update w0 j v) oldest).toNat) i).acked = true →
          ((clearSlots (Function.update w0 j v) oldest
            (slideCount (Function.update w0 j v) oldest).toNat) i).sent = true) ∧
    (sentCount (clearSlots (Function.update w0 j v) oldest
        (slideCount (Function.update w0 j v) oldest).toNat) : Int)
      ≤ piw - slideCount (Function.update w0 j v) oldest ∧
    piw - slideCount (Function.update w0 j v) oldest ≤ WINDOWSIZE := by
  have hmark := invA_update w0 j v piw ha hs hvs hva
  have hres := invA_slide (Function.update w0 j v) oldest piw hmark.1 hmark.2
    (by simpa [WINDOWSIZE] using hp) hscpos
  refine ⟨hres.1, hres.2.1, ?_⟩
  have := hres.2.2
  simp only [WINDOWSIZE]
  omega

theorem invA_input (s : SenderState) (p : Pkt) (h : InvA s) : InvA (A_input p s).1 := by
  obtain ⟨ha, hs, hp⟩ := h
  simp only [A_input]
  split_ifs with hc h1 h2 h3 h4
  · exact ⟨ha, hs, hp⟩
  · -- new ACK for the base, positive slide count, packets remain
    obtain ⟨hi1, hi2, hi3⟩ := invA_slide_full s.window_A
      (toIdx (windowPos p.acknum s.window_base_A))
      { packet := (s.window_A (toIdx (windowPos p.acknum s.window_base_A))).packet,
        acked := true,
        sent := (s.window_A (toIdx (windowPos p.acknum s.window_base_A))).sent,
        timer_id := (s.window_A (toIdx (windowPos p.acknum s.window_base_A))).timer_id }
      s.oldest_unacked s.packets_in_window ha hs hp rfl (fun _ => h2.2) h4
    exact ⟨hi1, hi2, hi3⟩
  · -- new ACK for the base, positive slide count, window drained
    obtain ⟨hi1, hi2, hi3⟩ := invA_slide_full s.window_A
      (toIdx (windowPos p.acknum s.window_base_A))
      { packet := (s.window_A (toIdx (windowPos p.acknum s.window_base_A))).packet,
        acked := true,
        sent := (s.window_A (toIdx (windowPos p.acknum s.window_base_A))).sent,
        timer_id := (s.window_A (toIdx (windowPos p.acknum s.window_base_A))).timer_id }
      s.oldest_unacked s.packets_in_window ha hs hp rfl (fun _ => h2.2) h4
    exact ⟨hi1, hi2, hi3⟩
  · -- new ACK for the base but zero slide count: only the mark happened
    obtain ⟨hi1, hi2⟩ := invA_update s.window_A
      (toIdx (windowPos p.acknum s.window_base_A))
      { packet := (s.window_A (toIdx (windowPos p.acknum s.window_base_A))).packet,
        acked := true,
        sent := (s.window_A (toIdx (windowPos p.acknum s.window_base_A))).sent,
        timer_id := (s.window_A (toIdx (windowPos p.acknum s.window_base_A))).timer_id }
      s.packets_in_window ha hs rfl (fun _ => h2.2)
    exact ⟨hi1, hi2, hp⟩
  · -- new ACK not for the base: only the mark happened
    obtain ⟨hi1, hi2⟩ := invA_update s.window_A
      (toIdx (windowPos p.acknum s.window_base_A))
      { packet := (s.window_A (toIdx (windowPos p.acknum s.window_base_A))).packet,
        acked := true,
        sent := (s.window_A (toIdx (windowPos p.acknum s.window_base_A))).sent,
        timer_id := (s.window_A (toIdx (windowPos p.acknum s.window_base_A))).timer_id }
      s.packets_in_window ha hs rfl (fun _ => h2.2)
    exact ⟨hi1, hi2, hp⟩
  · exact ⟨ha, hs, hp⟩
  · exact ⟨ha, hs, hp⟩

theorem invA_reachable (s : SenderState) (h : ReachableA s) : InvA s := by
  induction h with
  | init => exact invA_init
  | output m s _ ih => exact invA_output s m ih
  | input p s _ ih => exact invA_input s p ih
  | timer s _ ih => exact ih

/-- Claim C5: in every reachable sender state the occupancy counter
`packets_in_window` lies in `[0, WINDOWSIZE]`; moreover it dominates the
number of slots that are sent and not yet acked. -/
theorem sender_occupancy_bounds (s : SenderState) (h : ReachableA s) :
    0 ≤ s.packets_in_window ∧ s.packets_in_window ≤ WINDOWSIZE ∧
    (outstandingCount s.window_A : Int) ≤ s.packets_in_window := by
  obtain ⟨ha, hs, hp⟩ := invA_reachable s h
  have h1 : outstandingCount s.window_A ≤ sentCount s.window_A := by
    unfold outstandingCount sentCount
    apply Finset.card_le_card
    intro i hi
    simp only [Finset.mem_filter] at hi ⊢
    exact ⟨hi.1, hi.2.1⟩
  omega

/-- Witness for C5 at a concrete reachable state. -/
theorem sender_occupancy_bounds_witness :
    0 ≤ stThreeA.packets_in_window ∧ stThreeA.packets_in_window ≤ WINDOWSIZE ∧
    (outstandingCount stThreeA.window_A : Int) ≤ stThreeA.packets_in_window :=
  sender_occupancy_bounds stThreeA (reachableA_runA _)

theorem window_test_B (base seq : Int) (hb0 : 0 ≤ base) (hb1 : base < 12)
    (h : seq ≥ base ∧ seq < cMod (base + WINDOWSIZE) SEQSPACE) :
    0 ≤ seq - base ∧ seq - base < 6 ∧ seq < 12 := by
  obtain ⟨hge, hlt⟩ := h
  simp only [WINDOWSIZE, SEQSPACE, cMod] at hlt
  rw [Int.tmod_eq_emod (by omega) (by decide)] at hlt
  omega

theorem windowPos_of_inWin (base seq : Int) (h0 : 0 ≤ seq - base) (h6 : seq - base < 6) :
    windowPos seq base = seq - base := by
  simp only [windowPos, cMod]
  rw [Int.tmod_eq_emod h0 (by decide), Int.emod_eq_of_lt h0 h6]
  rw [if_neg (not_lt.mpr h0)]

theorem toIdx_val_of_range (x : Int) (h0 : 0 ≤ x) (h6 : x < 6) :
    ((toIdx x : Fin 6) : Nat) = x.toNat := by
  show ((x % 6).toNat) = x.toNat
  rw [Int.emod_eq_of_lt h0 h6]

theorem invB_store (w : Fin 6 → ReceiverPacketStatus) (base : Int) (p : Pkt)
    (hb0 : 0 ≤ base) (hb1 : base < 12)
    (hinv : ∀ i : Fin 6, (w i).received = true →
      (w i).packet.seqnum = (base + ((i : Nat) : Int)) % 12)
    (ht : p.seqnum ≥ base ∧ p.seqnum < cMod (base + WINDOWSIZE) SEQSPACE) :
    ∀ i : Fin 6, ((Function.update w (toIdx (windowPos p.seqnum base))
        { packet := p, received := true }) i).received = true →
      ((Function.update w (toIdx (windowPos p.seqnum base))
        { packet := p, received := true }) i).packet.seqnum = (base + ((i : Nat) : Int)) % 12 := by
  have hconv := window_test_B base p.seqnum hb0 hb1 ht
  intro i hrec
  by_cases hij : i = toIdx (windowPos p.seqnum base)
  · subst hij
    rw [Function.update_same]
    have hval : ((toIdx (windowPos p.seqnum base)) : Nat) = (p.seqnum - base).toNat := by
      rw [windowPos_of_inWin base p.seqnum hconv.1 hconv.2.1]
      exact toIdx_val_of_range _ hconv.1 hconv.2.1
    rw [hval]
    show p.seqnum = (base + (((p.seqnum - base).toNat : Nat) : Int)) % 12
    omega
  · rw [Function.update_noteq hij] at hrec ⊢
    exact hinv i hrec

theorem invB_shift (w1 : Fin 6 → ReceiverPacketStatus) (base : Int) (d : Nat)
    (hb0 : 0 ≤ base)
    (hinv1 : ∀ i : Fin 6, (w1 i).received = true →
      (w1 i).packet.seqnum = (base + ((i : Nat) : Int)) % 12) :
    0 ≤ cMod (base + (d : Int)) 12 ∧ cMod (base + (d : Int)) 12 < 12 ∧
    ∀ i : Fin 6, ((shiftWindow w1 d) i).received = true →
      ((shiftWindow w1 d) i).packet.seqnum
        = (cMod (base + (d : Int)) 12 + ((i : Nat) : Int)) % 12 := by
  have hbd : 0 ≤ base + (d : Int) := by omega
  have hcm : cMod (base + (d : Int)) 12 = (base + (d : Int)) % 12 :=
    Int.tmod_eq_emod hbd (by decide)
  refine ⟨by rw [hcm]; exact Int.emod_nonneg _ (by decide),
          by rw [hcm]; exact Int.emod_lt_of_pos _ (by decide), ?_⟩
  intro i hrec
  unfold shiftWindow at hrec ⊢
  by_cases hlt : (i : Nat) + d < 6
  · rw [dif_pos hlt] at hrec ⊢
    have hseq := hinv1 ⟨(i : Nat) + d, hlt⟩ hrec
    rw [hseq, hcm]
    push_cast
    omega
  · rw [dif_neg hlt] at hrec
    exact absurd hrec (by simp)

theorem invB_init : InvB B_init := by
  unfold InvB
  decide

theorem invB_input (s : ReceiverState) (p : Pkt) (h : InvB s) : InvB (B_input p s).1 := by
  obtain ⟨hb0, hb1, hinv⟩ := h
  have hb1' : s.window_base_B < 12 := by simpa [SEQSPACE] using hb1
  simp only [B_input]
  split_ifs with hc hz h1 h2 h3
  · exact ⟨hb0, hb1, hinv⟩
  · exact ⟨hb0, hb1, hinv⟩
  · -- store and deliver
    have hst := invB_store s.window_B s.window_base_B p hb0 hb1' hinv h1
    have hsh := invB_shift
      (Function.update s.window_B (toIdx (windowPos p.seqnum s.window_base_B))
        { packet := p, received := true })
      s.window_base_B
      (deliverCount
        (Function.update s.window_B (toIdx (windowPos p.seqnum s.window_base_B))
          { packet := p, received := true })
        s.window_base_B)
      hb0 hst
    exact ⟨hsh.1, hsh.2.1, hsh.2.2⟩
  · -- store without delivery
    have hst := invB_store s.window_B s.window_base_B p hb0 hb1' hinv h1
    exact ⟨hb0, hb1, hst⟩
  · exact ⟨hb0, hb1, hinv⟩
  · exact ⟨hb0, hb1, hinv⟩

theorem invB_reachable (s : ReceiverState) (h : ReachableB s) : InvB s := by
  induction h with
  | init => exact invB_init
  | input p s _ ih => exact invB_input s p ih

/-- Claim C10: in every reachable receiver state, every received slot `i`
holds the packet whose sequence number is `(window_base_B + i) mod SEQSPACE`;
this alignment survives stores, in-order deliveries, window shifts and slot
clearing. -/
theorem receiver_buffer_alignment (s : ReceiverState) (h : ReachableB s) :
    ∀ i : Fin 6, (s.window_B i).received = true →
      (s.window_B i).packet.seqnum = (s.window_base_B + (i : Nat)) % SEQSPACE :=
  (invB_reachable s h).2.2

/-- Witness for C10 at a concrete reachable state. -/
theorem receiver_buffer_alignment_witness :
    (stDupB.window_B 1).received = true ∧
    (stDupB.window_B 1).packet.seqnum = (stDupB.window_base_B + ((1 : Fin 6) : Nat)) % SEQSPACE :=
  ⟨by decide, receiver_buffer_alignment stDupB (reachableB_runB _) 1 (by decide)⟩

end SR
